import Mathlib

/-!
# Verification of the geometric sampling core of `ExtendedHogFeatureExtractor`

Shallow embedding of the sampling/assembly layer of
`libImageProcessing/include/imageprocessing/ExtendedHogFeatureExtractor.hpp`.
The only member implemented in the header is the `createPatchData` template;
it is embedded faithfully below (as an explicit state-passing loop mirroring
the two nested `for` loops).  The remaining members (`createIndexLut`,
`createPyramid`, the constructors and `extract`) are declared in the header
but their translation unit is not part of the repository snapshot, so they
are modelled from the specification, as marked in their doc comments.
-/

namespace ImageProcessing

/-- A `cv::Mat` source image: dimensions plus element access.  `px r c`
models `image.ptr<T>(r)[c]`; `cv::Mat::ptr` takes `int` arguments, hence
`Int` indices. -/
structure Mat (T : Type) where
  rows : Int
  cols : Int
  px : Int → Int → T

/-- Modelled from the spec: the repeated border reflection used by
`createIndexLut` (whose body is missing from the snapshot; only its
declaration at `ExtendedHogFeatureExtractor.hpp:144` is present).
Spec §4.1: starting from a raw index `i`, `while i < 0: i = -i - 1` and
`while i >= imageSize: i = 2*imageSize - i - 1`, the loops repeating until
`i` is in `[0, imageSize)`.  For `imageSize ≥ 1` exactly one rule applies
at a time, so the interleaving order is irrelevant.  The spec guarantees a
result only for `imageSize ≥ 1`; for degenerate sizes (where the C++ loop
would not terminate) the model returns 0. -/
def reflect (imageSize : Int) (i : Int) : Int :=
  if h1 : imageSize < 1 then 0
  else if h2 : i < 0 then reflect imageSize (-i - 1)
  else if h3 : imageSize ≤ i then reflect imageSize (2 * imageSize - i - 1)
  else i
termination_by i.natAbs
decreasing_by
  · omega
  · omega

/-- Modelled from the spec: `createIndexLut(imageSize, patchStart, patchSize)`
(declared at `ExtendedHogFeatureExtractor.hpp:144`, body missing from the
snapshot).  Spec §4.1: for each output position `k` in `[0, patchSize)`
compute the raw index `patchStart + k` and reflect it into range. -/
def createIndexLut (imageSize patchStart patchSize : Int) : List Int :=
  (List.range patchSize.toNat).map (fun k : Nat => reflect imageSize (patchStart + (k : Int)))

/-- The mutable state visible to `createPatchData`
(`ExtendedHogFeatureExtractor.hpp:154-164`): the source image, the two
index vectors (taken by non-const reference in the C++ signature) and the
freshly allocated patch buffer.  `cv::Mat patch(rows, cols, type)` does not
initialize its elements, so the buffer starts from an arbitrary backing
content; the loop indices `patchY`/`patchX` are `size_t`, hence `Nat`. -/
structure PatchState (T : Type) where
  image : Mat T
  rowIndices : List Int
  colIndices : List Int
  patch : Nat → Nat → T

variable {T : Type}

/-- `patchRow[patchX] = v`: point update of the patch buffer. -/
def writePx (buf : Nat → Nat → T) (y x : Nat) (v : T) : Nat → Nat → T :=
  fun y' x' => if y' = y ∧ x' = x then v else buf y' x'

/-- The inner loop of `createPatchData` (`hpp:160-161`):
`for (patchX = 0; patchX < colIndices.size(); ++patchX)
   patchRow[patchX] = imageRow[colIndices[patchX]];`
`imageRow` is the row pointer cached before the loop; the running counter
and the remaining iteration count are explicit, and `colIndices` is read
from the current state at every iteration, as the C++ loop does. -/
def fillCols (imageRow : Int → T) (patchY : Nat) : Nat → Nat → PatchState T → PatchState T
  | 0, _, s => s
  | Nat.succ k, patchX, s =>
      fillCols imageRow patchY k (patchX + 1)
        { s with patch := writePx s.patch patchY patchX (imageRow (s.colIndices.getD patchX 0)) }

/-- The outer loop of `createPatchData` (`hpp:157-162`): for each `patchY`
it caches the source row pointer `image.ptr<T>(rowIndices[patchY])` and runs
the inner loop over the whole column LUT. -/
def fillRows : Nat → Nat → PatchState T → PatchState T
  | 0, _, s => s
  | Nat.succ k, patchY, s =>
      fillRows k (patchY + 1)
        (fillCols (s.image.px (s.rowIndices.getD patchY 0)) patchY s.colIndices.length 0 s)

/-- `createPatchData` (`hpp:154-164`): allocates a
`rowIndices.size() × colIndices.size()` buffer over the backing content
`backing` and runs the two nested copy loops; the final state is returned
so that the effect on every component is visible. -/
def createPatchData (image : Mat T) (rowIndices colIndices : List Int)
    (backing : Nat → Nat → T) : PatchState T :=
  fillRows rowIndices.length 0
    { image := image, rowIndices := rowIndices, colIndices := colIndices, patch := backing }

/-- The `cv::Mat` value returned by `createPatchData`: dimensions
`rowIndices.size() × colIndices.size()`, elements from the filled buffer. -/
def patchMat (image : Mat T) (rowIndices colIndices : List Int)
    (backing : Nat → Nat → T) : Mat T :=
  { rows := (rowIndices.length : Int), cols := (colIndices.length : Int),
    px := fun r c => (createPatchData image rowIndices colIndices backing).patch r.toNat c.toNat }

/-- Modelled from the spec: one pyramid layer (§3), a scale factor plus the
scaled image.  The C++ pyramid lives in `ImagePyramid`, which is outside
the snapshot; scale factors are modelled as exact rationals. -/
structure Layer where
  scaleFactor : ℚ
  image : Mat ℚ

/-- Modelled from the spec: the image pyramid as seen by the extractor
(§3, §4.2): its chosen scale-factor range plus the layer list (layer
construction itself is out of scope per §1). -/
structure Pyramid where
  minScaleFactor : ℚ
  maxScaleFactor : ℚ
  layers : List Layer

/-- Modelled from the spec: `createPyramid(width, minWidth, maxWidth,
octaveLayerCount)` (declared at `hpp:134`, body missing from the snapshot).
Spec §4.2: `maxScaleFactor = samplingWidth / minWidth` and
`minScaleFactor = samplingWidth / maxWidth`; the layers themselves are
produced by the out-of-scope `ImagePyramid`, so they are a parameter. -/
def createPyramid (width minWidth maxWidth : ℚ) (layers : List Layer) : Pyramid :=
  { minScaleFactor := width / maxWidth, maxScaleFactor := width / minWidth, layers := layers }

/-- Modelled from the spec: the scale factor of layer `i` of the pyramid
built by `createPyramid` (§3, §4.2): starting from
`maxScaleFactor = width / minWidth`, consecutive layers are scaled down by
`2^(1/octaveLayerCount)`. -/
noncomputable def layerScaleFactor (width minWidth : ℚ) (octaveLayerCount : ℕ) (i : ℕ) : ℝ :=
  ((width : ℝ) / (minWidth : ℝ)) * (((2 : ℝ) ^ ((1 : ℝ) / (octaveLayerCount : ℝ)))⁻¹) ^ i

/-- Modelled from the spec: the invalid-configuration error signalled at
construction time (§7). -/
inductive ConfigError where
  | invalidConfiguration
deriving DecidableEq

/-- The extractor state (`hpp:166-172`): cell grid, cell size, nominal
patch size and the pyramid. -/
structure Extractor where
  cols : Int
  rows : Int
  cellSize : Int
  patchWidth : Int
  patchHeight : Int
  pyramid : Pyramid

/-- Modelled from the spec: the pyramid-deriving constructor
(`hpp:68-69`, body missing from the snapshot).  Spec §4.2/§7: invalid
configuration (`minWidth > maxWidth`, non-positive `cols`, `rows` or
`octaveLayerCount`, and `minWidth ≤ 0` via `0 < minWidth ≤ maxWidth`)
fails at construction time; otherwise the nominal patch size is the cell
grid times the cell size (taken from the filter) and the pyramid bounds
come from `createPyramid`.  The pyramid's layers are supplied by the
out-of-scope `ImagePyramid`. -/
def mkExtendedHogFeatureExtractor (cellSize cols rows minWidth maxWidth octaveLayerCount : Int)
    (layers : List Layer) : Except ConfigError Extractor :=
  if cols ≤ 0 ∨ rows ≤ 0 ∨ minWidth ≤ 0 ∨ maxWidth < minWidth ∨ octaveLayerCount ≤ 0 then
    Except.error ConfigError.invalidConfiguration
  else
    Except.ok
      { cols := cols, rows := rows, cellSize := cellSize,
        patchWidth := cols * cellSize, patchHeight := rows * cellSize,
        pyramid := createPyramid ((cols * cellSize : Int) : ℚ) ((minWidth : Int) : ℚ)
          ((maxWidth : Int) : ℚ) layers }

/-- The result of a successful `extract` (§3): the original non-enlarged
bounding box plus the assembled feature vector (feature values are floats
in C++, modelled as rationals). -/
structure ExtractedPatch where
  x : Int
  y : Int
  width : Int
  height : Int
  featureVector : List ℚ

/-- Modelled from the spec: discard the outermost ring of cells of a
`(rows+2) × (cols+2)` cell-descriptor grid (§4.4 step 6). -/
def cropCells (cols rows : Nat) (grid : List (List (List ℚ))) : List (List (List ℚ)) :=
  ((grid.drop 1).take rows).map (fun gridRow => (gridRow.drop 1).take cols)

/-- Modelled from the spec: concatenate a grid of per-cell descriptors in
row-major order into one feature vector (§4.4 step 6). -/
def concatCells (grid : List (List (List ℚ))) : List ℚ :=
  (grid.map (fun gridRow => gridRow.flatten)).flatten

/-- Of two layers, the one whose scale factor is closer to the wanted one. -/
def closerLayer (neededScale : ℚ) (a b : Layer) : Layer :=
  if |b.scaleFactor - neededScale| < |a.scaleFactor - neededScale| then b else a

/-- Modelled from the spec: layer selection (§4.4 step 1): if the needed
scale factor falls outside the pyramid's range the call fails (absence);
otherwise the layer with the closest scale factor is used. -/
def selectLayer (pyr : Pyramid) (neededScale : ℚ) : Option Layer :=
  if neededScale < pyr.minScaleFactor ∨ pyr.maxScaleFactor < neededScale then none
  else
    match pyr.layers with
    | [] => none
    | l :: rest => some (rest.foldl (closerLayer neededScale) l)

/-- Layer selection with the pyramid state threaded through, so that the
effect of `extract` on the shared pyramid is explicit. -/
def selectLayerS (pyr : Pyramid) (neededScale : ℚ) : Option Layer × Pyramid :=
  (selectLayer pyr neededScale, pyr)

/-- Modelled from the spec: `extract(x, y, width, height)` (declared at
`hpp:100`, body missing from the snapshot), §4.4 steps 1-7, with the
shared pyramid state threaded explicitly: select the layer whose scale
factor maps the requested width to the nominal patch width, map the
request into layer coordinates, enlarge by one cell on each side
(`patchWidth + 2*cellSize`), build the reflection-aware LUTs against the
layer image, sample the patch data, run the external descriptor filter,
crop the border cells, concatenate row-major, and bind the result to the
original non-enlarged rectangle.  Failure to find a layer yields `none`
(absence), never an error. -/
def extractS (E : Extractor) (ehog : Mat ℚ → List (List (List ℚ))) (pyr : Pyramid)
    (x y width height : Int) : Option ExtractedPatch × Pyramid :=
  if width ≤ 0 then (none, pyr)
  else
    match selectLayerS pyr ((E.patchWidth : ℚ) / (width : ℚ)) with
    | (none, pyr1) => (none, pyr1)
    | (some layer, pyr1) =>
      let neededScale : ℚ := (E.patchWidth : ℚ) / (width : ℚ)
      let ex : Int := (neededScale * (x : ℚ)).floor - E.cellSize
      let ey : Int := (neededScale * (y : ℚ)).floor - E.cellSize
      let ew : Int := E.patchWidth + 2 * E.cellSize
      let eh : Int := E.patchHeight + 2 * E.cellSize
      let rowLut := createIndexLut layer.image.rows ey eh
      let colLut := createIndexLut layer.image.cols ex ew
      let data := patchMat layer.image rowLut colLut (fun _ _ => 0)
      (some { x := x, y := y, width := width, height := height,
              featureVector := concatCells (cropCells E.cols.toNat E.rows.toNat (ehog data)) },
       pyr1)

/-- The caller-facing result of `extract`. -/
def extract (E : Extractor) (ehog : Mat ℚ → List (List (List ℚ))) (pyr : Pyramid)
    (x y width height : Int) : Option ExtractedPatch :=
  (extractS E ehog pyr x y width height).1

/-! ## Properties of the reflection LUT -/

theorem reflect_id (s i : Int) (h1 : 0 ≤ i) (h2 : i < s) : reflect s i = i := by
  rw [reflect.eq_def]
  rw [dif_neg (by omega), dif_neg (by omega), dif_neg (by omega)]

theorem reflect_step_neg (s i : Int) (hs : 1 ≤ s) (h : i < 0) :
    reflect s i = reflect s (-i - 1) := by
  rw [reflect.eq_def]
  rw [dif_neg (by omega), dif_pos h]

theorem reflect_step_high (s i : Int) (hs : 1 ≤ s) (h : s ≤ i) :
    reflect s i = reflect s (2 * s - i - 1) := by
  rw [reflect.eq_def]
  rw [dif_neg (by omega), dif_neg (by omega), dif_pos h]

theorem reflect_range_aux (s : Int) (hs : 1 ≤ s) :
    ∀ (n : Nat) (i : Int), i.natAbs ≤ n → 0 ≤ reflect s i ∧ reflect s i < s := by
  intro n
  induction n with
  | zero =>
    intro i hi
    have hzero : i = 0 := by omega
    subst hzero
    rw [reflect_id s 0 le_rfl (by omega)]
    omega
  | succ n ih =>
    intro i hi
    by_cases h1 : i < 0
    · rw [reflect_step_neg s i hs h1]
      exact ih (-i - 1) (by omega)
    · by_cases h2 : s ≤ i
      · rw [reflect_step_high s i hs h2]
        exact ih (2 * s - i - 1) (by omega)
      · rw [reflect_id s i (by omega) (by omega)]
        omega

theorem reflect_range (s i : Int) (hs : 1 ≤ s) : 0 ≤ reflect s i ∧ reflect s i < s :=
  reflect_range_aux s hs i.natAbs i le_rfl

theorem reflect_concrete_example : createIndexLut 10 (-2) 4 = [1, 0, 0, 1] := by
  have h0 : reflect 10 (-2) = 1 := by
    rw [reflect_step_neg 10 (-2) (by norm_num) (by norm_num)]
    norm_num [reflect_id]
  have h1 : reflect 10 (-1) = 0 := by
    rw [reflect_step_neg 10 (-1) (by norm_num) (by norm_num)]
    norm_num [reflect_id]
  have h2 : reflect 10 0 = 0 := reflect_id 10 0 (by norm_num) (by norm_num)
  have h3 : reflect 10 1 = 1 := reflect_id 10 1 (by norm_num) (by norm_num)
  simp [createIndexLut, List.range_succ]
  norm_num [h0, h1, h2, h3]

/-- C1: for every `imageSize ≥ 1`, `patchSize ≥ 1` and any `patchStart`
(including negative), `createIndexLut` succeeds (it is total by
construction) and returns a list of exactly `patchSize` entries, each
entry lying in `[0, imageSize-1]`. -/
theorem createIndexLut_safety (imageSize patchStart patchSize : Int)
    (hs : 1 ≤ imageSize) (hp : 1 ≤ patchSize) :
    ((createIndexLut imageSize patchStart patchSize).length : Int) = patchSize ∧
      ∀ e ∈ createIndexLut imageSize patchStart patchSize, 0 ≤ e ∧ e < imageSize := by
  constructor
  · rw [createIndexLut, List.length_map, List.length_range]
    omega
  · intro e he
    simp only [createIndexLut, List.mem_map, List.mem_range] at he
    obtain ⟨k, -, hk⟩ := he
    rw [← hk]
    exact reflect_range imageSize (patchStart + k) hs

theorem createIndexLut_safety_witness :
    (1 : Int) ≤ 10 ∧ (1 : Int) ≤ 4 ∧
      (((createIndexLut 10 (-2) 4).length : Int) = 4 ∧
        ∀ e ∈ createIndexLut 10 (-2) 4, 0 ≤ e ∧ e < 10) :=
  ⟨by norm_num, by norm_num, createIndexLut_safety 10 (-2) 4 (by norm_num) (by norm_num)⟩

/-- C2: entry `k` of the LUT equals the result of repeatedly reflecting
`patchStart + k` at the borders (`reflect` is exactly the repeated
two-rule reflection loop); when the requested range lies inside the image
the LUT is the identity sequence `[patchStart, …, patchStart+patchSize-1]`;
and `createIndexLut 10 (-2) 4 = [1, 0, 0, 1]`. -/
theorem createIndexLut_values (imageSize patchStart patchSize : Int)
    (_hs : 1 ≤ imageSize) :
    (∀ k : Nat, k < patchSize.toNat →
        (createIndexLut imageSize patchStart patchSize).getD k 0 =
          reflect imageSize (patchStart + k)) ∧
      (0 ≤ patchStart → patchStart + patchSize ≤ imageSize →
        createIndexLut imageSize patchStart patchSize =
          (List.range patchSize.toNat).map (fun k : Nat => patchStart + (k : Int))) ∧
      createIndexLut 10 (-2) 4 = [1, 0, 0, 1] := by
  refine ⟨?_, ?_, reflect_concrete_example⟩
  · intro k hk
    have hlen : k < (createIndexLut imageSize patchStart patchSize).length := by
      rw [createIndexLut, List.length_map, List.length_range]
      exact hk
    rw [List.getD_eq_getElem _ _ hlen]
    simp [createIndexLut]
  · intro h1 h2
    apply List.map_congr_left
    intro k hk
    rw [List.mem_range] at hk
    have hk' : (k : Int) < patchSize := by omega
    exact reflect_id imageSize (patchStart + k) (by omega) (by omega)

theorem createIndexLut_values_witness :
    (1 : Int) ≤ 10 ∧
      ((∀ k : Nat, k < (4 : Int).toNat →
          (createIndexLut 10 (-2) 4).getD k 0 = reflect 10 (-2 + k)) ∧
        ((0 : Int) ≤ -2 → (-2 : Int) + 4 ≤ 10 →
          createIndexLut 10 (-2) 4 =
            (List.range (4 : Int).toNat).map (fun k : Nat => -2 + (k : Int))) ∧
        createIndexLut 10 (-2) 4 = [1, 0, 0, 1]) :=
  ⟨by norm_num, createIndexLut_values 10 (-2) 4 (by norm_num)⟩

/-! ## Properties of the `createPatchData` copy loops -/

theorem fillCols_frame (imageRow : Int → T) (patchY : Nat) :
    ∀ (k patchX : Nat) (s : PatchState T),
      (fillCols imageRow patchY k patchX s).image = s.image ∧
      (fillCols imageRow patchY k patchX s).rowIndices = s.rowIndices ∧
      (fillCols imageRow patchY k patchX s).colIndices = s.colIndices := by
  intro k
  induction k with
  | zero => intro patchX s; simp [fillCols]
  | succ k ih =>
    intro patchX s
    rw [fillCols]
    exact ih (patchX + 1) _

theorem fillCols_patch (imageRow : Int → T) (patchY : Nat) :
    ∀ (k patchX : Nat) (s : PatchState T) (y' x' : Nat),
      (fillCols imageRow patchY k patchX s).patch y' x' =
        if y' = patchY ∧ patchX ≤ x' ∧ x' < patchX + k then
          imageRow (s.colIndices.getD x' 0)
        else s.patch y' x' := by
  intro k
  induction k with
  | zero =>
    intro patchX s y' x'
    rw [fillCols, if_neg (by omega)]
  | succ k ih =>
    intro patchX s y' x'
    rw [fillCols, ih]
    simp only [writePx]
    by_cases hy : y' = patchY
    · subst hy
      by_cases hx : x' = patchX
      · subst hx
        rw [if_neg (by omega), if_pos ⟨rfl, rfl⟩, if_pos (by omega)]
      · by_cases hin : patchX + 1 ≤ x' ∧ x' < patchX + 1 + k
        · rw [if_pos ⟨rfl, hin.1, hin.2⟩, if_pos (by omega)]
        · rw [if_neg (by omega), if_neg (by omega), if_neg (by omega)]
    · rw [if_neg (by omega), if_neg (by omega), if_neg (by omega)]

theorem fillRows_frame :
    ∀ (k patchY : Nat) (s : PatchState T),
      (fillRows k patchY s).image = s.image ∧
      (fillRows k patchY s).rowIndices = s.rowIndices ∧
      (fillRows k patchY s).colIndices = s.colIndices := by
  intro k
  induction k with
  | zero => intro patchY s; simp [fillRows]
  | succ k ih =>
    intro patchY s
    rw [fillRows]
    obtain ⟨h1, h2, h3⟩ :=
      ih (patchY + 1) (fillCols (s.image.px (s.rowIndices.getD patchY 0)) patchY s.colIndices.length 0 s)
    obtain ⟨g1, g2, g3⟩ :=
      fillCols_frame (s.image.px (s.rowIndices.getD patchY 0)) patchY s.colIndices.length 0 s
    exact ⟨h1.trans g1, h2.trans g2, h3.trans g3⟩

theorem fillRows_patch :
    ∀ (k patchY : Nat) (s : PatchState T) (y' x' : Nat),
      (fillRows k patchY s).patch y' x' =
        if patchY ≤ y' ∧ y' < patchY + k ∧ x' < s.colIndices.length then
          s.image.px (s.rowIndices.getD y' 0) (s.colIndices.getD x' 0)
        else s.patch y' x' := by
  intro k
  induction k with
  | zero =>
    intro patchY s y' x'
    rw [fillRows, if_neg (by omega)]
  | succ k ih =>
    intro patchY s y' x'
    rw [fillRows, ih]
    obtain ⟨him, hrow, hcol⟩ :=
      fillCols_frame (s.image.px (s.rowIndices.getD patchY 0)) patchY s.colIndices.length 0 s
    rw [him, hrow, hcol, fillCols_patch]
    by_cases hy : y' = patchY
    · subst hy
      by_cases hx : x' < s.colIndices.length
      · rw [if_neg (by omega), if_pos ⟨rfl, by omega, by omega⟩, if_pos ⟨le_rfl, by omega, hx⟩]
      · rw [if_neg (by omega), if_neg (by omega), if_neg (by omega)]
    · by_cases hin : patchY + 1 ≤ y' ∧ y' < patchY + 1 + k ∧ x' < s.colIndices.length
      · rw [if_pos hin, if_pos (by omega)]
      · rw [if_neg hin, if_neg (by omega), if_neg (by omega)]

/-- C3: for every source image and LUT vectors with valid entries,
`createPatchData` returns a fresh buffer of dimensions
`rowIndices.length × colIndices.length` with the same element type, whose
element at output position `(r, c)` equals the image element at
`(rowIndices[r], colIndices[c])`. -/
theorem createPatchData_copies (image : Mat T) (rl cl : List Int) (backing : Nat → Nat → T)
    (_hr : ∀ i ∈ rl, 0 ≤ i ∧ i < image.rows) (_hc : ∀ i ∈ cl, 0 ≤ i ∧ i < image.cols) :
    (patchMat image rl cl backing).rows = (rl.length : Int) ∧
      (patchMat image rl cl backing).cols = (cl.length : Int) ∧
      ∀ (r c : Nat) (hr' : r < rl.length) (hc' : c < cl.length),
        (patchMat image rl cl backing).px r c = image.px rl[r] cl[c] := by
  refine ⟨rfl, rfl, ?_⟩
  intro r c hr' hc'
  show (createPatchData image rl cl backing).patch ((r : Int)).toNat ((c : Int)).toNat = _
  unfold createPatchData
  rw [fillRows_patch]
  dsimp only
  simp only [Int.toNat_natCast]
  rw [if_pos ⟨Nat.zero_le r, by omega, hc'⟩]
  rw [List.getD_eq_getElem _ _ hr', List.getD_eq_getElem _ _ hc']

theorem createPatchData_copies_witness :
    (∀ i ∈ ([1, 0] : List Int), 0 ≤ i ∧ i < (Mat.mk 2 3 (fun r c => r * 10 + c) : Mat Int).rows) ∧
      (∀ i ∈ ([2, 0] : List Int), 0 ≤ i ∧ i < (Mat.mk 2 3 (fun r c => r * 10 + c) : Mat Int).cols) ∧
      ((patchMat (Mat.mk 2 3 (fun r c => r * 10 + c)) [1, 0] [2, 0] (fun _ _ => 0)).rows
          = (([1, 0] : List Int).length : Int) ∧
        (patchMat (Mat.mk 2 3 (fun r c => r * 10 + c)) [1, 0] [2, 0] (fun _ _ => 0)).cols
          = (([2, 0] : List Int).length : Int) ∧
        ∀ (r c : Nat) (hr' : r < ([1, 0] : List Int).length) (hc' : c < ([2, 0] : List Int).length),
          (patchMat (Mat.mk 2 3 (fun r c => r * 10 + c)) [1, 0] [2, 0] (fun _ _ => 0)).px r c
            = (Mat.mk 2 3 (fun r c => r * 10 + c) : Mat Int).px ([1, 0] : List Int)[r] ([2, 0] : List Int)[c]) :=
  ⟨by decide, by decide,
    createPatchData_copies (Mat.mk 2 3 (fun r c => r * 10 + c)) [1, 0] [2, 0] (fun _ _ => 0)
      (by decide) (by decide)⟩

/-- C9: `createPatchData` leaves all of its inputs unchanged: the source
image and the two LUT vectors (taken by non-const reference in C++) hold
exactly the same content after the call as before. -/
theorem createPatchData_frame (image : Mat T) (rl cl : List Int) (backing : Nat → Nat → T) :
    (createPatchData image rl cl backing).image = image ∧
      (createPatchData image rl cl backing).rowIndices = rl ∧
      (createPatchData image rl cl backing).colIndices = cl := by
  unfold createPatchData
  exact fillRows_frame rl.length 0 _

/-- C10: the output of `createPatchData` depends only on the image elements
selected by the LUTs — two images of equal dimensions agreeing at every
selected position produce identical buffers — and duplicate LUT entries
yield equal output elements. -/
theorem createPatchData_noninterference (A B : Mat T) (rl cl : List Int)
    (backing : Nat → Nat → T) (_hrows : A.rows = B.rows) (_hcols : A.cols = B.cols)
    (hagree : ∀ r c : Nat, r < rl.length → c < cl.length →
      A.px (rl.getD r 0) (cl.getD c 0) = B.px (rl.getD r 0) (cl.getD c 0)) :
    (∀ y x : Nat, (createPatchData A rl cl backing).patch y x
        = (createPatchData B rl cl backing).patch y x) ∧
      (∀ r1 c1 r2 c2 : Nat, r1 < rl.length → c1 < cl.length →
        r2 < rl.length → c2 < cl.length →
        rl.getD r1 0 = rl.getD r2 0 → cl.getD c1 0 = cl.getD c2 0 →
        (createPatchData A rl cl backing).patch r1 c1
          = (createPatchData A rl cl backing).patch r2 c2) := by
  constructor
  · intro y x
    unfold createPatchData
    rw [fillRows_patch, fillRows_patch]
    dsimp only
    by_cases h : 0 ≤ y ∧ y < 0 + rl.length ∧ x < cl.length
    · rw [if_pos h, if_pos h]
      exact hagree y x (by omega) (by omega)
    · rw [if_neg h, if_neg h]
  · intro r1 c1 r2 c2 h1 h2 h3 h4 hre hce
    unfold createPatchData
    rw [fillRows_patch, fillRows_patch]
    dsimp only
    rw [if_pos ⟨Nat.zero_le r1, by omega, h2⟩, if_pos ⟨Nat.zero_le r2, by omega, h4⟩,
      hre, hce]

theorem createPatchData_noninterference_witness :
    (Mat.mk 1 1 (fun r c => r + c) : Mat Int).rows = (Mat.mk 1 1 (fun r c => r + c + r * c) : Mat Int).rows ∧
      (Mat.mk 1 1 (fun r c => r + c) : Mat Int).cols = (Mat.mk 1 1 (fun r c => r + c + r * c) : Mat Int).cols ∧
      ((∀ y x : Nat,
          (createPatchData (Mat.mk 1 1 (fun r c => r + c)) [0] [0] (fun _ _ => (7 : Int))).patch y x
            = (createPatchData (Mat.mk 1 1 (fun r c => r + c + r * c)) [0] [0] (fun _ _ => (7 : Int))).patch y x) ∧
        (∀ r1 c1 r2 c2 : Nat, r1 < ([0] : List Int).length → c1 < ([0] : List Int).length →
          r2 < ([0] : List Int).length → c2 < ([0] : List Int).length →
          ([0] : List Int).getD r1 0 = ([0] : List Int).getD r2 0 →
          ([0] : List Int).getD c1 0 = ([0] : List Int).getD c2 0 →
          (createPatchData (Mat.mk 1 1 (fun r c => r + c)) [0] [0] (fun _ _ => (7 : Int))).patch r1 c1
            = (createPatchData (Mat.mk 1 1 (fun r c => r + c)) [0] [0] (fun _ _ => (7 : Int))).patch r2 c2)) :=
  ⟨rfl, rfl,
    createPatchData_noninterference (Mat.mk 1 1 (fun r c => r + c))
      (Mat.mk 1 1 (fun r c => r + c + r * c)) [0] [0] (fun _ _ => (7 : Int)) rfl rfl
      (by
        intro r c h1 h2
        simp only [List.length_cons, List.length_nil] at h1 h2
        obtain rfl : r = 0 := by omega
        obtain rfl : c = 0 := by omega
        rfl)⟩

/-! ## Construction-time validation -/

/-- C6 counterexample: with `cols = 0`, `rows = 1`, `minWidth = 1 ≤ 2 =
maxWidth` and `octaveLayerCount = 1` the claim's converse ("construction
succeeds when `0 < minWidth ≤ maxWidth` and `octaveLayerCount ≥ 1`")
asserts success, yet construction fails: non-positive `cols` is itself an
invalid configuration (spec §7), which the claim's own first half
requires to fail. -/
theorem mk_counterexample :
    (0 : Int) < 1 ∧ (1 : Int) ≤ 2 ∧ (1 : Int) ≤ 1 ∧
      mkExtendedHogFeatureExtractor 4 0 1 1 2 1 []
        = Except.error ConfigError.invalidConfiguration ∧
      ¬∃ E, mkExtendedHogFeatureExtractor 4 0 1 1 2 1 [] = Except.ok E :=
  ⟨by norm_num, by norm_num, le_rfl, rfl, by rintro ⟨E, hE⟩; exact Except.noConfusion hE⟩

/-- C6 (amended): construction of the pyramid-deriving extractor succeeds
exactly when `0 < cols`, `0 < rows`, `0 < minWidth ≤ maxWidth` and
`octaveLayerCount ≥ 1`; any violation fails with the
invalid-configuration error at construction time, and a successful
construction keeps every configuration value unclamped. -/
theorem mk_validation (cellSize cols rows minWidth maxWidth octaveLayerCount : Int)
    (layers : List Layer) :
    ((∃ E, mkExtendedHogFeatureExtractor cellSize cols rows minWidth maxWidth octaveLayerCount layers
        = Except.ok E) ↔
      (0 < cols ∧ 0 < rows ∧ 0 < minWidth ∧ minWidth ≤ maxWidth ∧ 1 ≤ octaveLayerCount)) ∧
    (∀ E, mkExtendedHogFeatureExtractor cellSize cols rows minWidth maxWidth octaveLayerCount layers
        = Except.ok E →
      E.cols = cols ∧ E.rows = rows ∧ E.cellSize = cellSize ∧
        E.patchWidth = cols * cellSize ∧ E.patchHeight = rows * cellSize) := by
  unfold mkExtendedHogFeatureExtractor
  by_cases h : cols ≤ 0 ∨ rows ≤ 0 ∨ minWidth ≤ 0 ∨ maxWidth < minWidth ∨ octaveLayerCount ≤ 0
  · rw [if_pos h]
    constructor
    · constructor
      · rintro ⟨E, hE⟩
        exact absurd hE (by simp)
      · intro hc
        omega
    · intro E hE
      exact absurd hE (by simp)
  · rw [if_neg h]
    constructor
    · constructor
      · intro _
        omega
      · intro _
        exact ⟨_, rfl⟩
    · intro E hE
      obtain rfl : _ = E := by injection hE
      exact ⟨rfl, rfl, rfl, rfl, rfl⟩

theorem mk_validation_witness :
    ∃ E, mkExtendedHogFeatureExtractor 4 2 2 10 40 5 [] = Except.ok E :=
  (mk_validation 4 2 2 10 40 5 []).1.mpr (by norm_num)

/-! ## Pyramid scale-factor derivation -/

/-- C8: the pyramid built by `createPyramid` has maximum scale factor
`width / minWidth` and minimum scale factor `width / maxWidth`, the fixed
sampling width maps back to `minWidth` and `maxWidth` at the two extremes
(exactly, in the real-number model), layer 0 carries the maximum scale
factor, consecutive layers' scale factors are in ratio
`2^(1/octaveLayerCount)`, and the scale factors are strictly decreasing. -/
theorem createPyramid_scaleFactors (width minWidth maxWidth : ℚ) (layers : List Layer)
    (octaveLayerCount : ℕ) (hw : 0 < width) (hmin : 0 < minWidth)
    (hle : minWidth ≤ maxWidth) (hn : 1 ≤ octaveLayerCount) :
    (createPyramid width minWidth maxWidth layers).maxScaleFactor = width / minWidth ∧
      (createPyramid width minWidth maxWidth layers).minScaleFactor = width / maxWidth ∧
      width / (createPyramid width minWidth maxWidth layers).maxScaleFactor = minWidth ∧
      width / (createPyramid width minWidth maxWidth layers).minScaleFactor = maxWidth ∧
      layerScaleFactor width minWidth octaveLayerCount 0 = ((width : ℝ) / (minWidth : ℝ)) ∧
      (∀ i : ℕ, layerScaleFactor width minWidth octaveLayerCount i
          = layerScaleFactor width minWidth octaveLayerCount (i + 1)
              * (2 : ℝ) ^ ((1 : ℝ) / (octaveLayerCount : ℝ))) ∧
      (∀ i : ℕ, layerScaleFactor width minWidth octaveLayerCount (i + 1)
          < layerScaleFactor width minWidth octaveLayerCount i) := by
  have hmax : 0 < maxWidth := lt_of_lt_of_le hmin hle
  have hr : (0 : ℝ) < (2 : ℝ) ^ ((1 : ℝ) / (octaveLayerCount : ℝ)) :=
    Real.rpow_pos_of_pos (by norm_num) _
  have hnR : (0 : ℝ) < (octaveLayerCount : ℝ) := by
    have : (1 : ℝ) ≤ (octaveLayerCount : ℝ) := by exact_mod_cast hn
    linarith
  have hr1 : (1 : ℝ) < (2 : ℝ) ^ ((1 : ℝ) / (octaveLayerCount : ℝ)) := by
    rw [Real.one_lt_rpow_iff_of_pos (by norm_num)]
    left
    exact ⟨by norm_num, by positivity⟩
  have ha : (0 : ℝ) < (width : ℝ) / (minWidth : ℝ) := by
    apply div_pos <;> exact_mod_cast ‹_›
  refine ⟨rfl, rfl, ?_, ?_, ?_, ?_, ?_⟩
  · show width / (width / minWidth) = minWidth
    field_simp
  · show width / (width / maxWidth) = maxWidth
    field_simp
  · simp [layerScaleFactor]
  · intro i
    unfold layerScaleFactor
    rw [pow_succ, mul_assoc, mul_assoc, inv_mul_cancel₀ (ne_of_gt hr), mul_one]
  · intro i
    unfold layerScaleFactor
    apply mul_lt_mul_of_pos_left _ ha
    rw [pow_succ]
    nth_rewrite 2 [← mul_one ((((2 : ℝ) ^ ((1 : ℝ) / (octaveLayerCount : ℝ)))⁻¹) ^ i)]
    exact mul_lt_mul_of_pos_left (inv_lt_one_of_one_lt₀ hr1) (pow_pos (inv_pos.mpr hr) i)

theorem createPyramid_scaleFactors_witness :
    (0 : ℚ) < 20 ∧ (0 : ℚ) < 10 ∧ (10 : ℚ) ≤ 40 ∧ 1 ≤ 5 ∧
      ((createPyramid 20 10 40 []).maxScaleFactor = 20 / 10 ∧
        (createPyramid 20 10 40 []).minScaleFactor = 20 / 40 ∧
        (20 : ℚ) / (createPyramid 20 10 40 []).maxScaleFactor = 10 ∧
        (20 : ℚ) / (createPyramid 20 10 40 []).minScaleFactor = 40 ∧
        layerScaleFactor 20 10 5 0 = (((20 : ℚ) : ℝ) / ((10 : ℚ) : ℝ)) ∧
        (∀ i : ℕ, layerScaleFactor 20 10 5 i
            = layerScaleFactor 20 10 5 (i + 1) * (2 : ℝ) ^ ((1 : ℝ) / ((5 : ℕ) : ℝ))) ∧
        (∀ i : ℕ, layerScaleFactor 20 10 5 (i + 1) < layerScaleFactor 20 10 5 i)) :=
  ⟨by norm_num, by norm_num, by norm_num, by norm_num,
    createPyramid_scaleFactors 20 10 40 [] 5 (by norm_num) (by norm_num) (by norm_num)
      (by norm_num)⟩

/-! ## Extraction: determinism, crop invariant, absence -/

theorem sum_map_const {α : Type} (l : List α) (f : α → Nat) (d : Nat)
    (h : ∀ a ∈ l, f a = d) : (l.map f).sum = l.length * d := by
  induction l with
  | nil => simp
  | cons a t ih =>
    rw [List.map_cons, List.sum_cons, h a (List.mem_cons_self a t),
      ih (fun b hb => h b (List.mem_cons_of_mem a hb)), List.length_cons]
    ring

theorem concatCells_cropCells_length (cols rows d : Nat) (grid : List (List (List ℚ)))
    (hlen : grid.length = rows + 2)
    (hrow : ∀ gr ∈ grid, gr.length = cols + 2)
    (hcell : ∀ gr ∈ grid, ∀ cell ∈ gr, cell.length = d) :
    (concatCells (cropCells cols rows grid)).length = cols * rows * d := by
  unfold concatCells cropCells
  rw [List.length_flatten, List.map_map, List.map_map]
  rw [sum_map_const _ _ (cols * d), List.length_take, List.length_drop, hlen]
  · have hmin : min rows (rows + 2 - 1) = rows := by omega
    rw [hmin]
    ring
  · intro gr hgr
    have hmem : gr ∈ grid := List.mem_of_mem_drop (List.mem_of_mem_take hgr)
    simp only [Function.comp_apply]
    rw [List.length_flatten, sum_map_const _ _ d, List.length_take, List.length_drop,
      hrow gr hmem]
    · have hmin2 : min cols (cols + 2 - 1) = cols := by omega
      rw [hmin2]
    · intro cell hcell'
      exact hcell gr hmem cell (List.mem_of_mem_drop (List.mem_of_mem_take hcell'))

/-- C7: two `extract` calls with identical arguments against the same
pyramid state with no intervening update return identical results
(bit-identical feature vectors), and `extract` mutates no shared state:
the threaded pyramid comes back unchanged from both calls. -/
theorem extract_deterministic (E : Extractor) (ehog : Mat ℚ → List (List (List ℚ)))
    (pyr : Pyramid) (x y width height : Int) :
    (extractS E ehog pyr x y width height).2 = pyr ∧
      (extractS E ehog ((extractS E ehog pyr x y width height).2) x y width height).1
        = (extractS E ehog pyr x y width height).1 := by
  have hframe : ∀ p : Pyramid, (extractS E ehog p x y width height).2 = p := by
    intro p
    unfold extractS
    by_cases h : width ≤ 0
    · rw [if_pos h]
    · rw [if_neg h]
      simp only [selectLayerS]
      cases hsel : selectLayer p ((E.patchWidth : ℚ) / (width : ℚ)) with
      | none => rfl
      | some layer => rfl
  refine ⟨hframe pyr, ?_⟩
  rw [hframe pyr]
/-- C4: for every successful `extract(x, y, width, height)`, the returned
patch's feature vector has length exactly `cols * rows *
perCellDescriptorLength` (border cells never contribute), it is the
row-major concatenation of the retained cells of the filter output on the
sampled enlarged patch, and the patch is bound to the original
non-enlarged rectangle. -/
theorem extract_crop_invariant (E : Extractor) (ehog : Mat ℚ → List (List (List ℚ)))
    (pyr : Pyramid) (x y width height : Int) (d : Nat)
    (hf : ∀ m : Mat ℚ, (ehog m).length = E.rows.toNat + 2 ∧
       ∀ gr ∈ ehog m, gr.length = E.cols.toNat + 2 ∧ ∀ cell ∈ gr, cell.length = d) :
    ∀ p, extract E ehog pyr x y width height = some p →
      p.x = x ∧ p.y = y ∧ p.width = width ∧ p.height = height ∧
        p.featureVector.length = E.cols.toNat * E.rows.toNat * d ∧
        ∃ layer, selectLayer pyr ((E.patchWidth : ℚ) / (width : ℚ)) = some layer ∧
          p.featureVector = concatCells (cropCells E.cols.toNat E.rows.toNat (ehog
            (patchMat layer.image
              (createIndexLut layer.image.rows
                ((((E.patchWidth : ℚ) / (width : ℚ)) * (y : ℚ)).floor - E.cellSize)
                (E.patchHeight + 2 * E.cellSize))
              (createIndexLut layer.image.cols
                ((((E.patchWidth : ℚ) / (width : ℚ)) * (x : ℚ)).floor - E.cellSize)
                (E.patchWidth + 2 * E.cellSize))
              (fun _ _ => 0)))) := by
  intro p hp
  unfold extract extractS at hp
  by_cases hw : width ≤ 0
  · rw [if_pos hw] at hp
    exact absurd hp (by simp)
  · rw [if_neg hw] at hp
    simp only [selectLayerS] at hp
    cases hsel : selectLayer pyr ((E.patchWidth : ℚ) / (width : ℚ)) with
    | none =>
      rw [hsel] at hp
      exact absurd hp (by simp)
    | some layer =>
      rw [hsel] at hp
      simp only [Option.some.injEq] at hp
      obtain rfl := hp.symm
      refine ⟨rfl, rfl, rfl, rfl, ?_, layer, rfl, rfl⟩
      apply concatCells_cropCells_length
      · exact (hf _).1
      · intro gr hgr
        exact ((hf _).2 gr hgr).1
      · intro gr hgr
        exact ((hf _).2 gr hgr).2

theorem extract_crop_invariant_witness :
    ∃ p, extract (Extractor.mk 2 2 4 8 8 (Pyramid.mk 0 0 []))
        (fun _ => List.replicate 4 (List.replicate 4 (List.replicate 3 (0 : ℚ))))
        (Pyramid.mk 1 1 [Layer.mk 1 (Mat.mk 16 16 (fun _ _ => 0))]) 0 0 8 8 = some p ∧
      p.featureVector.length = 12 := by
  have h := extract_crop_invariant (Extractor.mk 2 2 4 8 8 (Pyramid.mk 0 0 []))
    (fun _ => List.replicate 4 (List.replicate 4 (List.replicate 3 (0 : ℚ))))
    (Pyramid.mk 1 1 [Layer.mk 1 (Mat.mk 16 16 (fun _ _ => 0))]) 0 0 8 8 3
    (by
      intro m
      refine ⟨by simp, ?_⟩
      intro gr hgr
      rw [List.eq_of_mem_replicate hgr]
      refine ⟨by simp, ?_⟩
      intro cell hcell
      rw [List.eq_of_mem_replicate hcell]
      simp)
  have hsel : selectLayer (Pyramid.mk 1 1 [Layer.mk 1 (Mat.mk 16 16 (fun _ _ => 0))])
      ((((8 : Int) : ℚ)) / (((8 : Int) : ℚ))) = some (Layer.mk 1 (Mat.mk 16 16 (fun _ _ => 0))) := by
    unfold selectLayer
    rw [if_neg (by norm_num)]
    rfl
  have hext : ∃ q, extract (Extractor.mk 2 2 4 8 8 (Pyramid.mk 0 0 []))
      (fun _ => List.replicate 4 (List.replicate 4 (List.replicate 3 (0 : ℚ))))
      (Pyramid.mk 1 1 [Layer.mk 1 (Mat.mk 16 16 (fun _ _ => 0))]) 0 0 8 8 = some q := by
    unfold extract extractS
    rw [if_neg (by norm_num)]
    simp only [selectLayerS]
    rw [hsel]
    exact ⟨_, rfl⟩
  obtain ⟨p, hp⟩ := hext
  exact ⟨p, hp, (h p hp).2.2.2.2.1⟩

/-- C5: for every requested width whose physical size lies outside the
configured `[minWidth, maxWidth]` range of the derived pyramid, `extract`
returns an absent result (`none`) rather than raising an error (`extract`
is total by construction), and border overflow of the enlarged region is
never by itself a failure: once a layer is selected, `extract` always
returns a patch, wherever the enlarged rectangle lies. -/
theorem extract_absence (E : Extractor) (ehog : Mat ℚ → List (List (List ℚ)))
    (minWidth maxWidth : Int) (layers : List Layer) (pyr : Pyramid)
    (x y width height : Int)
    (hpw : 0 < E.patchWidth) (hmin : 0 < minWidth) (hle : minWidth ≤ maxWidth)
    (hw : 0 < width) :
    ((width < minWidth ∨ maxWidth < width) →
      extract E ehog
        (createPyramid (E.patchWidth : ℚ) (minWidth : ℚ) (maxWidth : ℚ) layers)
        x y width height = none) ∧
    (∀ layer, selectLayer pyr ((E.patchWidth : ℚ) / (width : ℚ)) = some layer →
      ∃ p, extract E ehog pyr x y width height = some p) := by
  have hpwQ : (0 : ℚ) < (E.patchWidth : ℚ) := by exact_mod_cast hpw
  have hwQ : (0 : ℚ) < (width : ℚ) := by exact_mod_cast hw
  constructor
  · intro hout
    have hsel : selectLayer
        (createPyramid (E.patchWidth : ℚ) (minWidth : ℚ) (maxWidth : ℚ) layers)
        ((E.patchWidth : ℚ) / (width : ℚ)) = none := by
      unfold selectLayer createPyramid
      have hcond : (E.patchWidth : ℚ) / (width : ℚ) < (E.patchWidth : ℚ) / (maxWidth : ℚ) ∨
          (E.patchWidth : ℚ) / (minWidth : ℚ) < (E.patchWidth : ℚ) / (width : ℚ) := by
        rcases hout with h | h
        · right
          apply div_lt_div_of_pos_left hpwQ hwQ
          exact_mod_cast h
        · left
          apply div_lt_div_of_pos_left hpwQ (by exact_mod_cast lt_of_lt_of_le hmin hle)
          exact_mod_cast h
      rw [if_pos hcond]
    unfold extract extractS
    rw [if_neg (by omega)]
    simp only [selectLayerS]
    rw [hsel]
  · intro layer hsel
    unfold extract extractS
    rw [if_neg (by omega)]
    simp only [selectLayerS]
    rw [hsel]
    exact ⟨_, rfl⟩

theorem extract_absence_witness :
    extract (Extractor.mk 2 2 4 8 8 (Pyramid.mk 0 0 []))
      (fun _ => ([] : List (List (List ℚ))))
      (createPyramid ((Extractor.mk 2 2 4 8 8 (Pyramid.mk 0 0 [])).patchWidth : ℚ)
        ((10 : Int) : ℚ) ((40 : Int) : ℚ) []) 0 0 50 50 = none :=
  (extract_absence (Extractor.mk 2 2 4 8 8 (Pyramid.mk 0 0 []))
      (fun _ => ([] : List (List (List ℚ)))) 10 40 [] (Pyramid.mk 0 0 []) 0 0 50 50
      (by decide) (by decide) (by decide) (by decide)).1 (Or.inr (by decide))

end ImageProcessing
